import Mathlib

/-!
Verification development for the fastapi-faiss-search repository.

The development shallowly embeds the vector index manager of
src/faiss_handler.py together with the configuration defaults of
src/config.py.  Vectors are modelled as lists of rationals (standing for
the float32 reals of the code), the FAISS flat L2 index as the list of
stored vectors in insertion order, and the on-disk snapshot pair as a
pair of optional file contents.  Python exceptions escaping an operation
are modelled with Except / Option results; the try/except structure of
load is modelled explicitly by a two-stage definition.
-/

namespace Spec2Proof

instance {ε α : Type _} [DecidableEq ε] [DecidableEq α] :
    DecidableEq (Except ε α) := fun x y =>
  match x, y with
  | .ok a, .ok b =>
    if h : a = b then isTrue (by rw [h])
    else isFalse (by intro hh; cases hh; exact h rfl)
  | .ok _, .error _ => isFalse (by intro hh; cases hh)
  | .error _, .ok _ => isFalse (by intro hh; cases hh)
  | .error e, .error f =>
    if h : e = f then isTrue (by rw [h])
    else isFalse (by intro hh; cases hh; exact h rfl)

/-- Model of the defaults of Settings in src/config.py: the configured
vector dimension. -/
def VECTOR_DIMENSION : Nat := 128

/-- Model of the defaults of Settings in src/config.py: the constant used
to turn an L2 distance into a confidence score (default 2.0). -/
def DISTANCE_NORMALIZATION_FACTOR : ℚ := 2

/-- Model of a faiss IndexFlatL2 object: its dimension d and the stored
vectors in insertion order.  ntotal is the number of stored vectors. -/
structure FaissIndex where
  d : Nat
  vectors : List (List ℚ)
deriving Repr, DecidableEq

/-- Model of faiss index.ntotal: the number of stored vectors. -/
def FaissIndex.ntotal (idx : FaissIndex) : Nat := idx.vectors.length

/-- Model of the faiss.IndexFlatL2 constructor: a fresh empty index of the
given dimension. -/
def IndexFlatL2 (d : Nat) : FaissIndex := ⟨d, []⟩

/-- Squared Euclidean (L2) distance between two vectors, the metric
computed by a faiss IndexFlatL2 search. -/
def sqDist (q v : List ℚ) : ℚ := (List.zipWith (fun a b => (a - b) ^ 2) q v).sum

/-- The ordering of faiss flat-index search results: ascending distance,
with exact ties broken by ascending stored position. -/
def searchKey (a b : ℚ × Nat) : Prop := a.1 < b.1 ∨ (a.1 = b.1 ∧ a.2 ≤ b.2)

instance : DecidableRel searchKey := fun a b =>
  inferInstanceAs (Decidable (a.1 < b.1 ∨ (a.1 = b.1 ∧ a.2 ≤ b.2)))

instance : IsTotal (ℚ × Nat) searchKey :=
  ⟨fun a b => by
    rcases lt_trichotomy a.1 b.1 with h | h | h
    · exact Or.inl (Or.inl h)
    · rcases Nat.le_total a.2 b.2 with h2 | h2
      · exact Or.inl (Or.inr ⟨h, h2⟩)
      · exact Or.inr (Or.inr ⟨h.symm, h2⟩)
    · exact Or.inr (Or.inl h)⟩

instance : IsTrans (ℚ × Nat) searchKey :=
  ⟨fun a b c hab hbc => by
    rcases hab with h1 | ⟨e1, l1⟩
    · rcases hbc with h2 | ⟨e2, _⟩
      · exact Or.inl (h1.trans h2)
      · exact Or.inl (e2 ▸ h1)
    · rcases hbc with h2 | ⟨e2, l2⟩
      · exact Or.inl (e1 ▸ h2)
      · exact Or.inr ⟨e1.trans e2, l1.trans l2⟩⟩

/-- The exhaustive scan of a faiss flat index: the squared L2 distance
from the query to every stored vector, each paired with its stored
position. -/
def scoredList (idx : FaissIndex) (q : List ℚ) : List (ℚ × Nat) :=
  (List.range idx.ntotal).map (fun i => (sqDist q (idx.vectors.getD i []), i))

/-- The k best entries of the exhaustive scan: ascending distance, ties
broken by ascending stored position. -/
def topScored (idx : FaissIndex) (q : List ℚ) (k : Nat) : List (ℚ × Nat) :=
  (List.insertionSort searchKey (scoredList idx q)).take k

/-- Model of faiss IndexFlatL2.search for a single query vector: it scores
every stored vector by squared L2 distance to the query, orders the
scored positions by ascending distance (ties by ascending position),
keeps the k best, and returns the row of distances and the row of ids,
padded with id -1 when fewer than k vectors are stored.  The query is
assumed to have width d (faiss asserts this; the HTTP layer checks it
before calling). -/
def FaissIndex.search (idx : FaissIndex) (q : List ℚ) (k : Nat) :
    List ℚ × List Int :=
  let top := topScored idx q k
  (top.map Prod.fst ++ List.replicate (k - top.length) 0,
   top.map (fun p => (p.2 : Int)) ++ List.replicate (k - top.length) (-1))

/-- State of the FaissHandler object of src/faiss_handler.py: the
configured dimension, the optional faiss index, and the parallel id_map
list of product ids. -/
structure FaissHandler where
  dimension : Nat
  index : Option FaissIndex
  id_map : List String
deriving Repr, DecidableEq

/-- Model of the data directory contents: each file is either absent
(none), or present; a present file either fails to deserialize
(some none, covering a corrupt index file or malformed JSON) or decodes
to a value (some (some x)). -/
structure Disk where
  index_file : Option (Option FaissIndex)
  ids_file : Option (Option (List String))
deriving Repr, DecidableEq

/-- The exceptions that can be raised inside the try block of
FaissHandler.load: a faiss read_index failure, a json.load failure, or
the ValueError raised by the explicit dimension check. -/
inductive LoadErr where
  | readFailure
  | parseFailure
  | dimensionMismatch
deriving Repr, DecidableEq

/-- The try block of FaissHandler.load in src/faiss_handler.py: if both
snapshot files exist, deserialize the index and the id list and raise
ValueError when the index dimension differs from the configured one;
if either file is missing, start a fresh empty index. -/
def loadTry (dimension : Nat) (disk : Disk) :
    Except LoadErr (FaissIndex × List String) :=
  match disk.index_file, disk.ids_file with
  | some idxFile, some idsFile =>
    match idxFile with
    | none => .error .readFailure
    | some idx =>
      match idsFile with
      | none => .error .parseFailure
      | some ids =>
        if idx.d ≠ dimension then .error .dimensionMismatch
        else .ok (idx, ids)
  | _, _ => .ok (IndexFlatL2 dimension, [])

/-- FaissHandler.load of src/faiss_handler.py: run the try block; on any
exception (the blanket except clause) re-initialize with an empty index
and an empty id_map. -/
def FaissHandler.load (dimension : Nat) (disk : Disk) : FaissHandler :=
  match loadTry dimension disk with
  | .ok (idx, ids) => ⟨dimension, some idx, ids⟩
  | .error _ => ⟨dimension, some (IndexFlatL2 dimension), []⟩

/-- FaissHandler.save of src/faiss_handler.py: overwrite both snapshot
files with the current index and id_map.  faiss.write_index raises when
the index is None, in which case the except clause fires before either
file is written. -/
def FaissHandler.save (h : FaissHandler) (disk : Disk) : Disk :=
  match h.index with
  | none => disk
  | some idx => ⟨some (some idx), some (some h.id_map)⟩

/-- FaissHandler.add of src/faiss_handler.py: append the vector to the
index and the product id to id_map and return the new total count.
Returns none when the call raises: index.add asserts that the vector
width equals the index dimension, and an unset index raises before any
mutation. -/
def FaissHandler.add (h : FaissHandler) (product_id : String)
    (vector : List ℚ) : Option (FaissHandler × Nat) :=
  match h.index with
  | none => none
  | some idx =>
    if vector.length = idx.d then
      let idx' : FaissIndex := ⟨idx.d, idx.vectors ++ [vector]⟩
      some ({ h with index := some idx', id_map := h.id_map ++ [product_id] },
            idx'.ntotal)
    else none

/-- The distance-to-confidence transform applied inside
FaissHandler.search. -/
def confidence (dist : ℚ) : ℚ :=
  max 0 (1 - dist / DISTANCE_NORMALIZATION_FACTOR)

/-- The result loop of FaissHandler.search: walk the (distance, id) rows
returned by faiss in order, skip padding ids -1, and look the id up in
id_map; an id beyond the end of id_map raises IndexError (modelled as
the error case). -/
def searchResultsLoop (id_map : List String) :
    List (ℚ × Int) → Except Unit (List (String × ℚ))
  | [] => .ok []
  | (dist, result_idx) :: rest =>
    if result_idx = -1 then searchResultsLoop id_map rest
    else
      match id_map[result_idx.toNat]? with
      | none => .error ()
      | some found_id =>
        (searchResultsLoop id_map rest).map
          (fun l => (found_id, confidence dist) :: l)

/-- FaissHandler.search of src/faiss_handler.py: return an empty list when
the index is unset or empty, otherwise run the faiss search and convert
each non-padding row into a (product id, confidence) pair. -/
def FaissHandler.search (h : FaissHandler) (vector : List ℚ) (k : Nat) :
    Except Unit (List (String × ℚ)) :=
  match h.index with
  | none => .ok []
  | some idx =>
    if idx.ntotal = 0 then .ok []
    else
      let rows := idx.search vector k
      searchResultsLoop h.id_map (rows.1.zip rows.2)

/-- The value FaissHandler.search produces on a well-formed store: the k
best scored positions, each turned into the product id stored at that
position together with the confidence of its distance. -/
def resultsOf (idx : FaissIndex) (id_map : List String) (q : List ℚ)
    (k : Nat) : List (String × ℚ) :=
  (topScored idx q k).map (fun p => (id_map.getD p.2 "", confidence p.1))

/-- FaissHandler.get_total_vectors of src/faiss_handler.py. -/
def FaissHandler.get_total_vectors (h : FaissHandler) : Nat :=
  match h.index with
  | some idx => idx.ntotal
  | none => 0

/-- FaissHandler.clear_all of src/faiss_handler.py: replace the index by a
fresh empty one, empty the id_map, and save the cleared state. -/
def FaissHandler.clear_all (h : FaissHandler) (disk : Disk) :
    FaissHandler × Disk :=
  let h' : FaissHandler :=
    { h with index := some (IndexFlatL2 h.dimension), id_map := [] }
  (h', h'.save disk)

/-- The mutating operations offered by the handler. -/
inductive Op where
  | add (product_id : String) (vector : List ℚ)
  | clear
deriving Repr, DecidableEq

/-- One mutating call on the handler: a failed add raises before any
mutation, leaving the state unchanged. -/
def step (h : FaissHandler) (disk : Disk) : Op → FaissHandler × Disk
  | .add pid v =>
    match h.add pid v with
    | some (h', _) => (h', disk)
    | none => (h, disk)
  | .clear => h.clear_all disk

/-- The parallel-lengths invariant of the spec: the id table and the index
store have the same number of entries, which is what Count reports. -/
def lengthInv (h : FaissHandler) : Prop :=
  h.id_map.length = h.get_total_vectors

instance (h : FaissHandler) : Decidable (lengthInv h) :=
  inferInstanceAs (Decidable (h.id_map.length = h.get_total_vectors))

/-! ### Helper lemmas -/

theorem sqDist_cons (a b : ℚ) (q v : List ℚ) :
    sqDist (a :: q) (b :: v) = (a - b) ^ 2 + sqDist q v := by
  simp [sqDist]

theorem sqDist_nonneg (q : List ℚ) : ∀ v, 0 ≤ sqDist q v := by
  induction q with
  | nil => intro v; simp [sqDist]
  | cons a q ih =>
    intro v
    cases v with
    | nil => simp [sqDist]
    | cons b v =>
      rw [sqDist_cons]
      exact add_nonneg (sq_nonneg _) (ih v)

theorem mem_scoredList {idx : FaissIndex} {q : List ℚ} {p : ℚ × Nat}
    (h : p ∈ scoredList idx q) :
    p.2 < idx.ntotal ∧ p.1 = sqDist q (idx.vectors.getD p.2 []) := by
  unfold scoredList at h
  rcases List.mem_map.1 h with ⟨i, hi, rfl⟩
  exact ⟨List.mem_range.1 hi, rfl⟩

theorem mem_topScored {idx : FaissIndex} {q : List ℚ} {k : Nat} {p : ℚ × Nat}
    (h : p ∈ topScored idx q k) : p ∈ scoredList idx q :=
  (List.perm_insertionSort searchKey _).subset (List.mem_of_mem_take h)

theorem length_topScored (idx : FaissIndex) (q : List ℚ) (k : Nat) :
    (topScored idx q k).length = min k idx.ntotal := by
  unfold topScored
  rw [List.length_take, List.length_insertionSort]
  unfold scoredList
  rw [List.length_map, List.length_range]

theorem pairwise_topScored (idx : FaissIndex) (q : List ℚ) (k : Nat) :
    (topScored idx q k).Pairwise searchKey :=
  List.Pairwise.sublist (List.take_sublist _ _)
    (List.sorted_insertionSort searchKey _)

theorem zip_replicate_pad (pad : Nat) :
    (List.replicate pad (0 : ℚ)).zip (List.replicate pad (-1 : Int))
      = List.replicate pad ((0 : ℚ), (-1 : Int)) := by
  induction pad with
  | zero => rfl
  | succ n ih => simp [List.replicate_succ, ih]

theorem zip_rows (top : List (ℚ × Nat)) (pad : Nat) :
    (top.map Prod.fst ++ List.replicate pad (0 : ℚ)).zip
        (top.map (fun p => ((p.2 : Nat) : Int)) ++ List.replicate pad (-1 : Int))
      = top.map (fun p => (p.1, ((p.2 : Nat) : Int)))
          ++ List.replicate pad ((0 : ℚ), (-1 : Int)) := by
  induction top with
  | nil => simp [zip_replicate_pad pad]
  | cons p t ih => simp [ih]

theorem searchResultsLoop_replicate (m : List String) (pad : Nat) :
    searchResultsLoop m (List.replicate pad ((0 : ℚ), (-1 : Int))) = .ok [] := by
  induction pad with
  | zero => rfl
  | succ n ih => simp [List.replicate_succ, searchResultsLoop, ih]

theorem searchResultsLoop_ok (m : List String) (pad : Nat) :
    ∀ top : List (ℚ × Nat), (∀ p ∈ top, p.2 < m.length) →
      searchResultsLoop m
          (top.map (fun p => (p.1, ((p.2 : Nat) : Int)))
            ++ List.replicate pad ((0 : ℚ), (-1 : Int)))
        = .ok (top.map (fun p => (m.getD p.2 "", confidence p.1))) := by
  intro top
  induction top with
  | nil => intro _; simpa using searchResultsLoop_replicate m pad
  | cons p t ih =>
    intro hb
    have hp : p.2 < m.length := hb p (List.mem_cons_self p t)
    have ht : ∀ x ∈ t, x.2 < m.length := fun x hx => hb x (List.mem_cons_of_mem _ hx)
    have hne : ((p.2 : Nat) : Int) ≠ -1 := by omega
    have hgd : m.getD p.2 "" = m[p.2] := by
      rw [List.getD_eq_getElem?_getD, List.getElem?_eq_getElem hp]
      rfl
    simp only [List.map_cons, List.cons_append, searchResultsLoop]
    rw [if_neg hne, Int.toNat_natCast, List.getElem?_eq_getElem hp]
    simp only [List.append_eq]
    rw [ih ht]
    simp only [Except.map, Except.ok.injEq, List.map_cons]
    rw [hgd]

theorem search_eq_resultsOf (h : FaissHandler) (idx : FaissIndex)
    (v : List ℚ) (k : Nat) (hidx : h.index = some idx)
    (hinv : idx.ntotal ≤ h.id_map.length) :
    h.search v k = .ok (resultsOf idx h.id_map v k) := by
  simp only [FaissHandler.search, hidx]
  by_cases h0 : idx.ntotal = 0
  · rw [if_pos h0]
    unfold resultsOf topScored scoredList
    rw [h0]
    simp
  · rw [if_neg h0]
    show searchResultsLoop h.id_map
        ((idx.search v k).1.zip (idx.search v k).2) = _
    unfold FaissIndex.search
    simp only []
    rw [zip_rows]
    refine searchResultsLoop_ok h.id_map _ (topScored idx v k) ?_
    intro p hp
    exact lt_of_lt_of_le (mem_scoredList (mem_topScored hp)).1 hinv

theorem length_resultsOf (idx : FaissIndex) (m : List String) (q : List ℚ)
    (k : Nat) : (resultsOf idx m q k).length = min k idx.ntotal := by
  unfold resultsOf
  rw [List.length_map, length_topScored]

theorem confidence_nonneg (d : ℚ) : 0 ≤ confidence d := le_max_left 0 _

theorem confidence_le_one {d : ℚ} (hd : 0 ≤ d) : confidence d ≤ 1 := by
  unfold confidence DISTANCE_NORMALIZATION_FACTOR
  have h2 : 0 ≤ d / 2 := by positivity
  exact max_le (by norm_num) (by linarith)

theorem confidence_zero : confidence 0 = 1 := by
  unfold confidence DISTANCE_NORMALIZATION_FACTOR
  norm_num

theorem confidence_of_far {d : ℚ} (hd : DISTANCE_NORMALIZATION_FACTOR ≤ d) :
    confidence d = 0 := by
  unfold confidence at *
  unfold DISTANCE_NORMALIZATION_FACTOR at *
  have : 1 - d / 2 ≤ 0 := by linarith
  exact max_eq_left this

theorem confidence_antitone {a b : ℚ} (h : a ≤ b) :
    confidence b ≤ confidence a := by
  unfold confidence DISTANCE_NORMALIZATION_FACTOR
  have : a / 2 ≤ b / 2 := by linarith
  exact max_le_max le_rfl (by linarith)

theorem pairwise_resultsOf (idx : FaissIndex) (m : List String) (q : List ℚ)
    (k : Nat) : (resultsOf idx m q k).Pairwise (fun a b => b.2 ≤ a.2) := by
  unfold resultsOf
  refine (List.pairwise_map).2 ((pairwise_topScored idx q k).imp ?_)
  intro a b hab
  refine confidence_antitone ?_
  rcases hab with h | ⟨h, _⟩
  · exact le_of_lt h
  · exact le_of_eq h

theorem searchResultsLoop_mem (m : List String) :
    ∀ (pairs : List (ℚ × Int)) (r : List (String × ℚ)),
      searchResultsLoop m pairs = .ok r →
      ∀ p ∈ r, ∃ q ∈ pairs, q.2 ≠ -1 ∧ p.2 = confidence q.1 := by
  intro pairs
  induction pairs with
  | nil =>
    intro r hr p hp
    simp only [searchResultsLoop, Except.ok.injEq] at hr
    subst hr
    simp at hp
  | cons qd t ih =>
    intro r hr p hp
    rcases qd with ⟨d, i⟩
    by_cases hi : i = -1
    · rw [searchResultsLoop, if_pos hi] at hr
      rcases ih r hr p hp with ⟨x, hx, hxx⟩
      exact ⟨x, List.mem_cons_of_mem _ hx, hxx⟩
    · rw [searchResultsLoop, if_neg hi] at hr
      cases hgt : m[i.toNat]? with
      | none => rw [hgt] at hr; cases hr
      | some s =>
        rw [hgt] at hr
        cases hloop : searchResultsLoop m t with
        | error e => rw [hloop] at hr; cases hr
        | ok l =>
          rw [hloop] at hr
          simp only [Except.map, Except.ok.injEq] at hr
          subst hr
          rcases List.mem_cons.1 hp with rfl | hp2
          · exact ⟨(d, i), List.mem_cons_self _ _, hi, rfl⟩
          · rcases ih l hloop p hp2 with ⟨x, hx, hxx⟩
            exact ⟨x, List.mem_cons_of_mem _ hx, hxx⟩

theorem search_result_confidences (h : FaissHandler) (v : List ℚ) (k : Nat)
    (r : List (String × ℚ)) (hr : h.search v k = .ok r) :
    ∀ p ∈ r, ∃ d, 0 ≤ d ∧ p.2 = confidence d := by
  intro p hp
  cases hidx : h.index with
  | none =>
    simp only [FaissHandler.search, hidx] at hr
    cases hr
    simp at hp
  | some idx =>
    simp only [FaissHandler.search, hidx] at hr
    by_cases h0 : idx.ntotal = 0
    · rw [if_pos h0] at hr
      cases hr
      simp at hp
    · rw [if_neg h0] at hr
      revert hr
      show searchResultsLoop h.id_map
          ((idx.search v k).1.zip (idx.search v k).2) = _ → _
      unfold FaissIndex.search
      simp only []
      rw [zip_rows]
      intro hr
      rcases searchResultsLoop_mem h.id_map _ r hr p hp with ⟨q, hq, hq1, hq2⟩
      rcases List.mem_append.1 hq with hq | hq
      · rcases List.mem_map.1 hq with ⟨x, hx, rfl⟩
        refine ⟨x.1, ?_, hq2⟩
        rw [(mem_scoredList (mem_topScored hx)).2]
        exact sqDist_nonneg _ _
      · exact absurd (congrArg Prod.snd (List.eq_of_mem_replicate hq)) hq1

theorem add_spec {h : FaissHandler} {pid : String} {v : List ℚ}
    {h' : FaissHandler} {n : Nat} (hs : h.add pid v = some (h', n)) :
    ∃ idx, h.index = some idx ∧ v.length = idx.d
      ∧ h' = ⟨h.dimension, some ⟨idx.d, idx.vectors ++ [v]⟩, h.id_map ++ [pid]⟩
      ∧ n = idx.ntotal + 1 := by
  cases hidx : h.index with
  | none =>
    simp only [FaissHandler.add, hidx] at hs
    cases hs
  | some idx =>
    simp only [FaissHandler.add, hidx] at hs
    by_cases hv : v.length = idx.d
    · rw [if_pos hv] at hs
      simp only [Option.some.injEq, Prod.mk.injEq] at hs
      refine ⟨idx, rfl, hv, hs.1.symm, ?_⟩
      rw [← hs.2]
      show (idx.vectors ++ [v]).length = idx.vectors.length + 1
      simp
    · rw [if_neg hv] at hs
      cases hs

theorem get_total_eq_ntotal {h : FaissHandler} {idx : FaissIndex}
    (hidx : h.index = some idx) : h.get_total_vectors = idx.ntotal := by
  simp only [FaissHandler.get_total_vectors, hidx]

/-! ### Claims -/

/-- C1: the claim says that reloading a snapshot pair whose identifier
file was truncated to a shorter (still decodable) list is detected by a
length-mismatch check and handled by falling back to an empty store, so
that no Search ever reads the identifier table out of bounds.  The code
has no such check: at the concrete snapshot pair below (an index holding
one vector of width 2 next to an identifier file decoding to the empty
list), load succeeds with a one-vector index and an empty id_map — it
does not fall back to the empty store — and the subsequent Search raises
IndexError from the out-of-bounds id_map access, modelled as the error
result. -/
theorem C1_truncated_ids_load_oob :
    (FaissHandler.load 2 ⟨some (some ⟨2, [[0, 0]]⟩), some (some [])⟩).get_total_vectors = 1
    ∧ (FaissHandler.load 2 ⟨some (some ⟨2, [[0, 0]]⟩), some (some [])⟩).id_map = []
    ∧ FaissHandler.load 2 ⟨some (some ⟨2, [[0, 0]]⟩), some (some [])⟩
        ≠ ⟨2, some (IndexFlatL2 2), []⟩
    ∧ (FaissHandler.load 2 ⟨some (some ⟨2, [[0, 0]]⟩), some (some [])⟩).search [0, 0] 1
        = .error () := by decide

/-- C2: the claim says a snapshot whose stored vector width differs from
the configured dimension fails with a DimensionMismatch surfaced
distinctly from the generic silent fall-back-to-empty path.  The code
does raise ValueError for the mismatch (first conjunct, the try block),
but the raise sits inside the same try whose blanket except clause
absorbs it: loading a width-2 snapshot under configured dimension 3
yields exactly the same silent empty-store result as loading a corrupt
index file (second conjunct), namely the empty fallback store (third
conjunct).  The mismatch is therefore not surfaced distinctly. -/
theorem C2_dimension_mismatch_absorbed :
    loadTry 3 ⟨some (some ⟨2, []⟩), some (some ["x"])⟩ = .error .dimensionMismatch
    ∧ FaissHandler.load 3 ⟨some (some ⟨2, []⟩), some (some ["x"])⟩
        = FaissHandler.load 3 ⟨some none, some (some ["x"])⟩
    ∧ FaissHandler.load 3 ⟨some (some ⟨2, []⟩), some (some ["x"])⟩
        = ⟨3, some (IndexFlatL2 3), []⟩ := by decide

/-- C3 counterexample: the original claim — the identifier table, the
index store and Count agree at every observable point, in particular
after every load — is false: loading a decodable snapshot pair holding
two vectors but only one identifier leaves the lengths unequal. -/
theorem C3_invariant_counterexample :
    ¬ lengthInv
        (FaissHandler.load 2 ⟨some (some ⟨2, [[1, 0], [0, 1]]⟩), some (some ["a"])⟩) := by
  decide

/-- C3 (amended): the parallel-lengths invariant
len(id_map) = len(IndexStore) = Count() holds after a load that falls
back (any exception path), after a load whose decoded snapshot pair has
matching lengths, is preserved by every successful add, and holds after
every clear; Count reports exactly the index store size.  It is not
guaranteed after loading a decodable snapshot pair whose two files have
different lengths. -/
theorem C3_invariant_amended :
    (∀ dimension disk e, loadTry dimension disk = .error e →
        lengthInv (FaissHandler.load dimension disk))
    ∧ (∀ dimension disk idx ids, loadTry dimension disk = .ok (idx, ids) →
        ids.length = idx.ntotal → lengthInv (FaissHandler.load dimension disk))
    ∧ (∀ (h : FaissHandler) pid v h' n, lengthInv h →
        h.add pid v = some (h', n) → lengthInv h')
    ∧ (∀ (h : FaissHandler) disk, lengthInv (h.clear_all disk).1)
    ∧ (∀ (h : FaissHandler) idx, h.index = some idx →
        h.get_total_vectors = idx.ntotal) := by
  refine ⟨?_, ?_, ?_, ?_, fun h idx hidx => get_total_eq_ntotal hidx⟩
  · intro dimension disk e he
    simp [FaissHandler.load, he, lengthInv, FaissHandler.get_total_vectors,
      IndexFlatL2, FaissIndex.ntotal]
  · intro dimension disk idx ids hok hlen
    simp [FaissHandler.load, hok, lengthInv, FaissHandler.get_total_vectors,
      FaissIndex.ntotal]
    exact hlen
  · intro h pid v h' n hinv hs
    rcases add_spec hs with ⟨idx, hidx, _, rfl, _⟩
    have h1 : h.id_map.length = idx.ntotal := by
      rw [hinv, get_total_eq_ntotal hidx]
    simp [lengthInv, FaissHandler.get_total_vectors, FaissIndex.ntotal, h1]
  · intro h disk
    simp [lengthInv, FaissHandler.clear_all, FaissHandler.get_total_vectors,
      IndexFlatL2, FaissIndex.ntotal]

/-- Witness for C3 (amended): concrete instantiations of the load
conjuncts — a consistent empty snapshot pair, a corrupt index file, and
a clear on a concrete handler — all satisfy the invariant. -/
theorem C3_invariant_amended_witness :
    lengthInv (FaissHandler.load 2 ⟨some (some ⟨2, []⟩), some (some [])⟩)
    ∧ lengthInv (FaissHandler.load 2 ⟨some none, some (some ["x"])⟩)
    ∧ lengthInv ((FaissHandler.mk 2 (some (IndexFlatL2 2)) []).clear_all ⟨none, none⟩).1 :=
  ⟨C3_invariant_amended.2.1 2 ⟨some (some ⟨2, []⟩), some (some [])⟩ ⟨2, []⟩ []
      (by decide) (by decide),
   C3_invariant_amended.1 2 ⟨some none, some (some ["x"])⟩ .readFailure (by decide),
   C3_invariant_amended.2.2.2.1 (FaissHandler.mk 2 (some (IndexFlatL2 2)) []) ⟨none, none⟩⟩

/-- C4: the confidence of every search result is
max(0, 1 - distance / DISTANCE_NORMALIZATION_FACTOR) with the factor
configured as 2; for a distance d ≥ 0 the confidence lies in [0, 1],
distance 0 gives confidence exactly 1, any distance at or beyond the
factor gives confidence exactly 0, and every confidence in any
successful search result arises from a nonnegative distance and is
within [0, 1]. -/
theorem C4_confidence_transform :
    (∀ d : ℚ, confidence d = max 0 (1 - d / DISTANCE_NORMALIZATION_FACTOR))
    ∧ DISTANCE_NORMALIZATION_FACTOR = 2
    ∧ (∀ d : ℚ, 0 ≤ d → 0 ≤ confidence d ∧ confidence d ≤ 1)
    ∧ confidence 0 = 1
    ∧ (∀ d : ℚ, DISTANCE_NORMALIZATION_FACTOR ≤ d → confidence d = 0)
    ∧ (∀ (h : FaissHandler) (v : List ℚ) (k : Nat) (r : List (String × ℚ)),
        h.search v k = .ok r →
        ∀ p ∈ r, ∃ d, 0 ≤ d ∧ p.2 = confidence d ∧ 0 ≤ p.2 ∧ p.2 ≤ 1) := by
  refine ⟨fun d => rfl, rfl,
    fun d hd => ⟨confidence_nonneg d, confidence_le_one hd⟩,
    confidence_zero, fun d hd => confidence_of_far hd, ?_⟩
  intro h v k r hr p hp
  rcases search_result_confidences h v k r hr p hp with ⟨d, hd, hpd⟩
  exact ⟨d, hd, hpd, hpd ▸ confidence_nonneg d, hpd ▸ confidence_le_one hd⟩

/-- Witness for C4: the bounds conjunct at distance 1, the cutoff
conjunct at distance 3, and the search conjunct at a handler with an
unset index. -/
theorem C4_confidence_transform_witness :
    ((0 : ℚ) ≤ 1 ∧ 0 ≤ confidence 1 ∧ confidence 1 ≤ 1)
    ∧ (DISTANCE_NORMALIZATION_FACTOR ≤ (3 : ℚ) ∧ confidence 3 = 0)
    ∧ ((FaissHandler.mk 2 none ["a"]).search [0, 0] 1 = .ok []
        ∧ ∀ p ∈ ([] : List (String × ℚ)),
            ∃ d, 0 ≤ d ∧ p.2 = confidence d ∧ 0 ≤ p.2 ∧ p.2 ≤ 1) :=
  ⟨⟨by norm_num, (C4_confidence_transform.2.2.1 1 (by norm_num)).1,
      (C4_confidence_transform.2.2.1 1 (by norm_num)).2⟩,
   ⟨by norm_num [DISTANCE_NORMALIZATION_FACTOR],
      C4_confidence_transform.2.2.2.2.1 3 (by norm_num [DISTANCE_NORMALIZATION_FACTOR])⟩,
   ⟨rfl, C4_confidence_transform.2.2.2.2.2 (FaissHandler.mk 2 none ["a"]) [0, 0] 1 [] rfl⟩⟩

/-- C5: on a well-formed store (index present, id table of matching
length), Search with a query of the configured dimension and k ≥ 1
returns exactly the value obtained by scoring every stored vector with
the squared L2 distance (scoredList), ordering by ascending distance
with ties broken by ascending stored position (searchKey), keeping the
k best (topScored) and pairing each position's stored id with its
confidence (resultsOf); the result has length min(k, totalCount) and is
ordered by descending confidence. -/
theorem C5_search_exact_knn (h : FaissHandler) (idx : FaissIndex)
    (v : List ℚ) (k : Nat) (hidx : h.index = some idx)
    (_hd : v.length = h.dimension) (hinv : h.id_map.length = idx.ntotal)
    (_hk : 1 ≤ k) :
    h.search v k = .ok (resultsOf idx h.id_map v k)
    ∧ (resultsOf idx h.id_map v k).length = min k idx.ntotal
    ∧ (topScored idx v k).Pairwise searchKey
    ∧ (resultsOf idx h.id_map v k).Pairwise (fun a b => b.2 ≤ a.2) :=
  ⟨search_eq_resultsOf h idx v k hidx (hinv ▸ le_rfl),
   length_resultsOf idx h.id_map v k,
   pairwise_topScored idx v k,
   pairwise_resultsOf idx h.id_map v k⟩

/-- Witness for C5: the worked spec example — dimension 2, stored vectors
[0,0] (id a) and [1,0] (id b), query [0,0], k = 2. -/
theorem C5_search_exact_knn_witness :
    ((FaissHandler.mk 2 (some ⟨2, [[0, 0], [1, 0]]⟩) ["a", "b"]).index
        = some ⟨2, [[0, 0], [1, 0]]⟩
      ∧ ([(0 : ℚ), 0]).length = 2
      ∧ (["a", "b"] : List String).length = FaissIndex.ntotal ⟨2, [[0, 0], [1, 0]]⟩
      ∧ 1 ≤ 2)
    ∧ ((FaissHandler.mk 2 (some ⟨2, [[0, 0], [1, 0]]⟩) ["a", "b"]).search [0, 0] 2
        = .ok (resultsOf ⟨2, [[0, 0], [1, 0]]⟩ ["a", "b"] [0, 0] 2)
      ∧ (resultsOf ⟨2, [[0, 0], [1, 0]]⟩ ["a", "b"] [0, 0] 2).length
          = min 2 (FaissIndex.ntotal ⟨2, [[0, 0], [1, 0]]⟩)
      ∧ (topScored ⟨2, [[0, 0], [1, 0]]⟩ [0, 0] 2).Pairwise searchKey
      ∧ (resultsOf ⟨2, [[0, 0], [1, 0]]⟩ ["a", "b"] [0, 0] 2).Pairwise
          (fun a b => b.2 ≤ a.2)) :=
  ⟨⟨rfl, rfl, rfl, by decide⟩,
   C5_search_exact_knn (FaissHandler.mk 2 (some ⟨2, [[0, 0], [1, 0]]⟩) ["a", "b"])
     ⟨2, [[0, 0], [1, 0]]⟩ [0, 0] 2 rfl rfl rfl (by decide)⟩

/-- C6: on a store with its index present, Search returns the empty list
(and no error) when the store is empty; and whenever the well-formed
store holds fewer than k entries, Search returns that many results —
fewer than k — without error. -/
theorem C6_search_small_store (h : FaissHandler) (idx : FaissIndex)
    (v : List ℚ) (k : Nat) (hidx : h.index = some idx) (_hk : 1 ≤ k) :
    (idx.ntotal = 0 → h.search v k = .ok [])
    ∧ (h.id_map.length = idx.ntotal → idx.ntotal < k →
        ∃ r, h.search v k = .ok r ∧ r.length = idx.ntotal ∧ r.length < k) := by
  constructor
  · intro h0
    simp only [FaissHandler.search, hidx, if_pos h0]
  · intro hinv hlt
    refine ⟨resultsOf idx h.id_map v k,
      search_eq_resultsOf h idx v k hidx (hinv ▸ le_rfl), ?_, ?_⟩
    · rw [length_resultsOf, min_eq_right (le_of_lt hlt)]
    · rw [length_resultsOf, min_eq_right (le_of_lt hlt)]
      exact hlt

/-- Witness for C6: an empty store queried with k = 1, and a one-entry
store queried with k = 3. -/
theorem C6_search_small_store_witness :
    ((FaissHandler.mk 2 (some (IndexFlatL2 2)) []).search [0, 0] 1 = .ok [])
    ∧ (∃ r, (FaissHandler.mk 2 (some ⟨2, [[0, 0]]⟩) ["a"]).search [0, 0] 3 = .ok r
        ∧ r.length = FaissIndex.ntotal ⟨2, [[0, 0]]⟩ ∧ r.length < 3) :=
  ⟨(C6_search_small_store (FaissHandler.mk 2 (some (IndexFlatL2 2)) [])
      (IndexFlatL2 2) [0, 0] 1 rfl (by decide)).1 rfl,
   (C6_search_small_store (FaissHandler.mk 2 (some ⟨2, [[0, 0]]⟩) ["a"])
      ⟨2, [[0, 0]]⟩ [0, 0] 3 rfl (by decide)).2 rfl (by decide)⟩

/-- C7: a successful add of a vector of the configured dimension appends
the vector to the index store and the id to the identifier table,
returns the new total entry count, and raises Count by exactly 1; over
the mutating operations, Count never decreases except through clear,
which sets it to 0. -/
theorem C7_add_count (h : FaissHandler) (idx : FaissIndex) (pid : String)
    (v : List ℚ) (hidx : h.index = some idx) (hdim : idx.d = h.dimension)
    (hvlen : v.length = h.dimension) :
    (∃ h' n, h.add pid v = some (h', n)
      ∧ h'.index = some ⟨idx.d, idx.vectors ++ [v]⟩
      ∧ h'.id_map = h.id_map ++ [pid]
      ∧ h'.get_total_vectors = h.get_total_vectors + 1
      ∧ n = h'.get_total_vectors)
    ∧ (∀ (g : FaissHandler) (disk : Disk) (op : Op), op ≠ Op.clear →
        g.get_total_vectors ≤ ((step g disk op).1).get_total_vectors)
    ∧ (∀ (g : FaissHandler) (disk : Disk),
        ((step g disk Op.clear).1).get_total_vectors = 0) := by
  refine ⟨?_, ?_, ?_⟩
  · have hv : v.length = idx.d := by rw [hvlen, hdim]
    refine ⟨⟨h.dimension, some ⟨idx.d, idx.vectors ++ [v]⟩, h.id_map ++ [pid]⟩,
      idx.ntotal + 1, ?_, rfl, rfl, ?_, ?_⟩
    · simp only [FaissHandler.add, hidx, if_pos hv]
      show some (_, (idx.vectors ++ [v]).length) = _
      simp [FaissIndex.ntotal]
    · simp [FaissHandler.get_total_vectors, hidx, FaissIndex.ntotal]
    · simp [FaissHandler.get_total_vectors, FaissIndex.ntotal]
  · intro g disk op hne
    cases op with
    | add pid' v' =>
      cases hadd : g.add pid' v' with
      | none => simp [step, hadd]
      | some p =>
        rcases p with ⟨g', n⟩
        rcases add_spec hadd with ⟨jdx, hjdx, _, rfl, _⟩
        simp [step, hadd, FaissHandler.get_total_vectors, hjdx,
          FaissIndex.ntotal, get_total_eq_ntotal hjdx]
    | clear => exact absurd rfl hne
  · intro g disk
    simp [step, FaissHandler.clear_all, FaissHandler.get_total_vectors,
      IndexFlatL2, FaissIndex.ntotal]

/-- Witness for C7: adding id c with vector [1,1] to a one-entry store of
dimension 2. -/
theorem C7_add_count_witness :
    ((FaissHandler.mk 2 (some ⟨2, [[0, 0]]⟩) ["a"]).index = some ⟨2, [[0, 0]]⟩
      ∧ (2 : Nat) = 2 ∧ ([(1 : ℚ), 1]).length = 2)
    ∧ (∃ h' n, (FaissHandler.mk 2 (some ⟨2, [[0, 0]]⟩) ["a"]).add "c" [1, 1]
          = some (h', n)
        ∧ h'.index = some ⟨2, [[0, 0], [1, 1]]⟩
        ∧ h'.id_map = ["a", "c"]
        ∧ h'.get_total_vectors
            = (FaissHandler.mk 2 (some ⟨2, [[0, 0]]⟩) ["a"]).get_total_vectors + 1
        ∧ n = h'.get_total_vectors) :=
  ⟨⟨rfl, rfl, rfl⟩,
   (C7_add_count (FaissHandler.mk 2 (some ⟨2, [[0, 0]]⟩) ["a"]) ⟨2, [[0, 0]]⟩
      "c" [1, 1] rfl rfl rfl).1⟩

/-- C8: clear is idempotent: after a clear, Count is 0; clearing again
completes (the model is total), leaves Count at 0, and returns the very
same store state. -/
theorem C8_clear_idempotent (h : FaissHandler) (disk : Disk) :
    ((h.clear_all disk).1).get_total_vectors = 0
    ∧ (((h.clear_all disk).1.clear_all (h.clear_all disk).2).1).get_total_vectors = 0
    ∧ ((h.clear_all disk).1.clear_all (h.clear_all disk).2).1 = (h.clear_all disk).1 := by
  refine ⟨rfl, rfl, rfl⟩

/-- C9: saving a store and loading it back under the same configured
dimension restores the very same handler state, hence an identical Count
and identical Search results for every query and k. -/
theorem C9_save_load_roundtrip (h : FaissHandler) (idx : FaissIndex)
    (disk : Disk) (hidx : h.index = some idx) (hdim : idx.d = h.dimension) :
    FaissHandler.load h.dimension (h.save disk) = h
    ∧ (FaissHandler.load h.dimension (h.save disk)).get_total_vectors
        = h.get_total_vectors
    ∧ ∀ v k, (FaissHandler.load h.dimension (h.save disk)).search v k
        = h.search v k := by
  have hsave : h.save disk = ⟨some (some idx), some (some h.id_map)⟩ := by
    simp only [FaissHandler.save, hidx]
  have key : FaissHandler.load h.dimension (h.save disk) = h := by
    rw [hsave]
    unfold FaissHandler.load loadTry
    simp only []
    rw [if_neg (fun hne => hne hdim)]
    rcases h with ⟨dim, ix, m⟩
    obtain rfl : ix = some idx := hidx
    rfl
  exact ⟨key, by rw [key], fun v k => by rw [key]⟩

/-- Witness for C9: a round trip of a one-entry store of dimension 2 over
an initially empty data directory. -/
theorem C9_save_load_roundtrip_witness :
    ((FaissHandler.mk 2 (some ⟨2, [[0, 0]]⟩) ["a"]).index = some ⟨2, [[0, 0]]⟩
      ∧ FaissIndex.d ⟨2, [[0, 0]]⟩ = 2)
    ∧ FaissHandler.load 2
        ((FaissHandler.mk 2 (some ⟨2, [[0, 0]]⟩) ["a"]).save ⟨none, none⟩)
      = FaissHandler.mk 2 (some ⟨2, [[0, 0]]⟩) ["a"] :=
  ⟨⟨rfl, rfl⟩,
   (C9_save_load_roundtrip (FaissHandler.mk 2 (some ⟨2, [[0, 0]]⟩) ["a"])
      ⟨2, [[0, 0]]⟩ ⟨none, none⟩ rfl rfl).1⟩

/-- C10: with the index unset (None), Count returns 0 and Search returns
the empty list — an ok result, not an error — for every query and k. -/
theorem C10_unset_index_safe (dim : Nat) (ids : List String) (v : List ℚ)
    (k : Nat) :
    (FaissHandler.mk dim none ids).get_total_vectors = 0
    ∧ (FaissHandler.mk dim none ids).search v k = .ok [] :=
  ⟨rfl, rfl⟩

end Spec2Proof
